import Mathlib

/-!
Shallow embedding of the trinity_agent_system core (src/core/base_agent.py and
the MicroCEO budget handler of src/agents/micro_ceo.py), together with proofs
of the specified properties of `BaseAgent.run`, `BaseAgent.act`,
`BaseAgent.register_tool` and `MicroCEO._manage_budget`.

Modelling conventions:
* `datetime.utcnow()` readings are modelled by a clock stream `clock : Nat → Nat`
  consumed at successive indices (`tick`); a timestamp is the `Nat` value read.
  `strftime` formatting of a reading is modelled by `toString`.
* Python `Dict[str, Any]` values are modelled by `PyVal.pdict` association
  lists with Python dict semantics (insertion order, assignment replaces the
  value of an existing key in place, lookup by first matching key).
* The `think` stage talks to the outside world (the LLM client); from `run`'s
  point of view one call to `think` either returns a text or raises (for
  example `json.dumps` on a non-serialisable context raises inside `think`'s
  prompt construction).  It is modelled by an oracle
  `thinkO : Nat → Except String String` giving, per iteration, either the
  raised exception's message or the returned text.  The LLM-client fields
  (`model`, `temperature`, `max_tokens`, `system_prompt`, `using_llm`) only
  influence which text `think` produces, hence are carried as plain data.
* A registered tool handler, invoked with its params dict spread as keyword
  arguments, either returns a Python value or raises; it is modelled as a
  function `PyVal → ToolOutcome`.
* Python `float` / `Decimal` amounts are modelled exactly by `ℚ`; `int` by
  `Int`; `str(x)` by `PyVal.pyStr`.
-/

set_option autoImplicit false

/-- Python value, as far as the repository's core manipulates values:
strings, ints, floats (`ℚ`), bools, `None`, and string-keyed dicts. -/
inductive PyVal where
  | pstr (s : String)
  | pint (n : Int)
  | pnum (q : ℚ)
  | pbool (b : Bool)
  | pnone
  | pdict (entries : List (String × PyVal))

/-- Python `isinstance(v, dict)`. -/
def PyVal.isMapping : PyVal → Bool
  | .pdict _ => true
  | _ => false

/-- Python `str(v)` for the scalar values the code ever stringifies.  A dict
is abbreviated (in the source, `str` of a mapping is never reached in `act`:
the mapping branch passes the value through unchanged). -/
def PyVal.pyStr : PyVal → String
  | .pstr s => s
  | .pint n => toString n
  | .pnum q => toString q
  | .pbool b => if b then "True" else "False"
  | .pnone => "None"
  | .pdict _ => "dict"

/-- Python dict lookup `d.get(k)` on an insertion-ordered association list:
first matching key (assignment keeps a single entry per key, see `dictSet`). -/
def dictGet {α : Type} : List (String × α) → String → Option α
  | [], _ => none
  | (k', v') :: rest, k => if k = k' then some v' else dictGet rest k

/-- Python dict assignment `d[k] = v`: replaces the value of an existing key
in place, otherwise appends a new entry (insertion order preserved). -/
def dictSet {α : Type} : List (String × α) → String → α → List (String × α)
  | [], k, v => [(k, v)]
  | (k', v') :: rest, k, v =>
      if k = k' then (k, v) :: rest else (k', v') :: dictSet rest k v

/-- `AgentStatus` enum of `base_agent.py`. -/
inductive AgentStatus where
  | idle
  | thinking
  | acting
  | learning
  | error
  deriving DecidableEq, Repr

/-- `TaskPriority` enum of `base_agent.py`. -/
inductive TaskPriority where
  | critical
  | high
  | medium
  | low
  deriving DecidableEq, Repr

/-- `ThoughtStep` model of `base_agent.py` (timestamp is a clock reading). -/
structure ThoughtStep where
  timestamp : Nat
  step_type : String
  content : String
  confidence : ℚ
  tools_used : List String

/-- `ActionResult` model of `base_agent.py`. -/
structure ActionResult where
  success : Bool
  data : Option PyVal
  error : Option String
  execution_time_ms : Int
  artifacts : List String

/-- `TaskContext` model of `base_agent.py`. -/
structure TaskContext where
  task_id : String
  original_request : String
  priority : TaskPriority
  metadata : PyVal
  max_iterations : Int
  timeout_seconds : Nat

/-- `AgentThought` model of `base_agent.py`. -/
structure AgentThought where
  agent_name : String
  task_id : String
  status : AgentStatus
  thought_steps : List ThoughtStep
  current_action : Option String
  final_result : Option PyVal
  created_at : Nat
  completed_at : Option Nat

/-- Outcome of invoking a registered tool handler with its params dict:
a normal return value, or a raised exception's message. -/
inductive ToolOutcome where
  | ret (v : PyVal)
  | exn (msg : String)

/-- A registered tool handler: params dict to outcome. -/
abbrev Handler := PyVal → ToolOutcome

/-- Mutable state of a `BaseAgent` instance (fields of `__init__`). -/
structure BaseAgent where
  name : String
  role : String
  description : String
  model : String
  temperature : ℚ
  max_tokens : Nat
  system_prompt : String
  using_llm : Bool
  tools : List (String × Handler)
  tool_descriptions : List PyVal
  status : AgentStatus
  current_task : Option TaskContext
  thought_history : List AgentThought
  max_iterations : Int
  continue_on_error : Bool

/-- `BaseAgent.__init__` with the constructor's defaults: empty tool table,
status `idle`, `max_iterations = 10`, `continue_on_error = True`. -/
def initAgent (name role description : String) (using_llm : Bool) : BaseAgent :=
  { name := name
    role := role
    description := description
    model := "gpt-4-turbo-preview"
    temperature := 0.7
    max_tokens := 4096
    system_prompt := ""
    using_llm := using_llm
    tools := []
    tool_descriptions := []
    status := .idle
    current_task := none
    thought_history := []
    max_iterations := 10
    continue_on_error := true }

/-- `BaseAgent.register_tool`: stores the callable in the dict (assignment:
a duplicate name replaces the stored handler) and unconditionally appends the
schema descriptor `{"type": "function", "function": {...}}`. -/
def BaseAgent.register_tool (ag : BaseAgent) (name : String) (func : Handler)
    (description : String) (parameters : PyVal) : BaseAgent :=
  { ag with
    tools := dictSet ag.tools name func
    tool_descriptions := ag.tool_descriptions ++
      [.pdict [("type", .pstr "function"),
               ("function", .pdict [("name", .pstr name),
                                    ("description", .pstr description),
                                    ("parameters", parameters)])]] }

/-- `BaseAgent.get_tool`: `self._tools.get(name)`. -/
def BaseAgent.get_tool (ag : BaseAgent) (name : String) : Option Handler :=
  dictGet ag.tools name

/-- A single-quote character, written via its code point. -/
def squote : String := String.singleton (Char.ofNat 39)

/-- Error message of the tool-not-found branch of `act`:
the Arabic source text with the requested name between single quotes. -/
def toolNotFoundMsg (action : String) : String :=
  "الأداة " ++ squote ++ action ++ squote ++ " غير موجودة"

/-- Core of `BaseAgent.act` (lines 210-246): dict lookup of the tool, not
found reported as a failed result, handler outcome wrapped, every raised
exception converted to a failed result.  `startT`/`endT` are the two
`utcnow()` readings; `execution_time_ms` is their difference as the source's
`int(...)` (an `Int`, so a non-monotone clock would make it negative). -/
def actCore (tools : List (String × Handler)) (action : String) (params : PyVal)
    (startT endT : Nat) : ActionResult :=
  match dictGet tools action with
  | none =>
      { success := false
        data := none
        error := some (toolNotFoundMsg action)
        execution_time_ms := (endT : Int) - (startT : Int)
        artifacts := [] }
  | some tool =>
      match tool params with
      | .ret v =>
          { success := true
            data := some (if v.isMapping then v else .pdict [("result", .pstr v.pyStr)])
            error := none
            execution_time_ms := (endT : Int) - (startT : Int)
            artifacts := [] }
      | .exn msg =>
          { success := false
            data := none
            error := some msg
            execution_time_ms := (endT : Int) - (startT : Int)
            artifacts := [] }

/-- `BaseAgent.act`: sets `self.status = ACTING`, then runs `actCore`. -/
def BaseAgent.act (ag : BaseAgent) (action : String) (params : PyVal)
    (startT endT : Nat) : BaseAgent × ActionResult :=
  ({ ag with status := .acting }, actCore ag.tools action params startT endT)

/-- Word character of Python's Unicode `\w` restricted to the character
classes occurring here: ASCII alphanumerics, underscore, and the Arabic
block (U+0600 to U+06FF). -/
def isWordChar (c : Char) : Bool :=
  c.isAlphanum || c = '_' || (0x600 ≤ c.toNat && c.toNat ≤ 0x6FF)

/-- Whitespace of Python's `\s` (space, tab, newline, carriage return,
vertical tab, form feed). -/
def isSpaceChar (c : Char) : Bool :=
  c = ' ' || c = '\t' || c = '\n' || c = '\r' || c.toNat = 11 || c.toNat = 12

/-- A double or single quote, written via code points. -/
def isQuoteChar (c : Char) : Bool :=
  c.toNat = 34 || c.toNat = 39

/-- The trigger-phrase alternatives of the extraction regex, in the
alternation order of the source pattern. -/
def triggerWords : List String :=
  ["استخدم", "استدعِ", "استعن بـ", "استخدام"]

/-- Literal matching: strips `lit` from the front of `cs` when present. -/
def stripLit : List Char → List Char → Option (List Char)
  | [], cs => some cs
  | _ :: _, [] => none
  | p :: ps, c :: cs => if c = p then stripLit ps cs else none

/-- The regex tail after a matched trigger word: `\s+` then an optional
quote then the captured `(\w+)`.  A quote not followed by a word character
fails (backtracking cannot help: a quote is itself not a word character). -/
def matchTail : List Char → Option String
  | [] => none
  | c :: rest =>
      if isSpaceChar c then
        let rest1 := rest.dropWhile isSpaceChar
        let rest2 :=
          match rest1 with
          | q :: r => if isQuoteChar q then r else rest1
          | [] => rest1
        let word := rest2.takeWhile isWordChar
        if word.isEmpty then none else some (String.mk word)
      else none

/-- Tries each trigger alternative at the current position, in order. -/
def tryTriggersAt : List String → List Char → Option String
  | [], _ => none
  | t :: ts, cs =>
      match stripLit t.toList cs with
      | some rest =>
          match matchTail rest with
          | some w => some w
          | none => tryTriggersAt ts cs
      | none => tryTriggersAt ts cs

/-- `re.search` of the extraction pattern of `_extract_and_execute_action`:
leftmost position wins; returns the captured tool name. -/
def findTrigger : List Char → Option String
  | [] => none
  | c :: rest =>
      match tryTriggersAt triggerWords (c :: rest) with
      | some w => some w
      | none => findTrigger rest

/-- The params dict `{"query": thought_process}` passed to `act`. -/
def queryParams (text : String) : PyVal :=
  .pdict [("query", .pstr text)]

/-- Payload of the synthesized no-tool result of
`_extract_and_execute_action` (the source's Arabic message, glossed in the
spec as "reasoning completed, no tool needed"). -/
def noToolData : PyVal :=
  .pdict [("message", .pstr "اكتمل التفكير بدون الحاجة لأداة خارجية")]

/-- The synthesized successful result returned when no trigger phrase is
found: success, the fixed message payload, zero execution time. -/
def noToolResult : ActionResult :=
  { success := true
    data := some noToolData
    error := none
    execution_time_ms := 0
    artifacts := [] }

/-- `BaseAgent._extract_and_execute_action`, with the clock position
threaded: on a trigger match, `act` reads the clock twice; otherwise no
reading happens.  Returns the result and the next clock index. -/
def iterAction (tools : List (String × Handler)) (clock : Nat → Nat)
    (text : String) (t1 : Nat) : ActionResult × Nat :=
  match findTrigger text.toList with
  | some toolName =>
      (actCore tools toolName (queryParams text) (clock t1) (clock (t1 + 1)), t1 + 2)
  | none => (noToolResult, t1)

/-- Value recorded in `tools_used` of the action step:
`action_result.data.get("tool", "unknown")` (the pydantic `List[str]`
coercion of the looked-up value is modelled by `pyStr`; on the source's
success paths `data` is always a mapping). -/
def dataToolName (d : Option PyVal) : String :=
  match d with
  | some (.pdict entries) =>
      match dictGet entries "tool" with
      | some v => v.pyStr
      | none => "unknown"
  | _ => "unknown"

/-- The `thinking` step recorded for a think text (confidence 0.8). -/
def thinkStepOf (clock : Nat → Nat) (tick : Nat) (text : String) : ThoughtStep :=
  { timestamp := clock tick
    step_type := "thinking"
    content := text
    confidence := 0.8
    tools_used := [] }

/-- The `action` step recorded for a successful action result with data `d`
(confidence 1.0, `tools_used` from the data's `"tool"` key). -/
def actionStepOf (clock : Nat → Nat) (tick : Nat) (d : Option PyVal) : ThoughtStep :=
  { timestamp := clock tick
    step_type := "action"
    content := "تم تنفيذ الإجراء بنجاح"
    confidence := 1
    tools_used := [dataToolName d] }

/-- The `error` step recorded for a failed action result with error `e`
(confidence 0.0). -/
def errStepOf (clock : Nat → Nat) (tick : Nat) (e : Option String) : ThoughtStep :=
  { timestamp := clock tick
    step_type := "error"
    content := "فشل التنفيذ: " ++ e.getD "None"
    confidence := 0
    tools_used := [] }

/-- The `error` step appended by `run`'s outer exception handler, carrying
the exception's message. -/
def raisedStepOf (clock : Nat → Nat) (tick : Nat) (m : String) : ThoughtStep :=
  { timestamp := clock tick
    step_type := "error"
    content := m
    confidence := 0
    tools_used := [] }

/-- Result of the `for` loop of `BaseAgent.run` (lines 272-306): either the
loop finished normally (break or exhaustion) with the appended steps, the
final result, the transcript status and the next clock index — or an
exception with message `msg` escaped the loop body. -/
inductive LoopRes where
  | finished (steps : List ThoughtStep) (final_result : Option PyVal)
      (tstatus : AgentStatus) (tick : Nat)
  | raised (steps : List ThoughtStep) (msg : String) (tick : Nat)

/-- The `for iteration in range(max_iterations)` loop of `BaseAgent.run`.
`fuel` is the number of remaining iterations, `iter` the current iteration
index (feeding the think oracle), `tick` the clock index, `tstatus` the
current `thought.status` (written only at the two break points). -/
def runLoop (tools : List (String × Handler)) (contErr : Bool)
    (thinkO : Nat → Except String String) (clock : Nat → Nat) :
    Nat → Nat → Nat → AgentStatus → LoopRes
  | 0, _iter, tick, tstatus => .finished [] none tstatus tick
  | fuel + 1, iter, tick, tstatus =>
      match thinkO iter with
      | .error msg => .raised [] msg tick
      | .ok text =>
          let p := iterAction tools clock text (tick + 1)
          if p.1.success then
            .finished [thinkStepOf clock tick text, actionStepOf clock p.2 p.1.data]
              p.1.data .idle (p.2 + 1)
          else
            if contErr then
              match runLoop tools contErr thinkO clock fuel (iter + 1) (p.2 + 1) tstatus with
              | .finished steps fr st tk =>
                  .finished (thinkStepOf clock tick text :: errStepOf clock p.2 p.1.error :: steps)
                    fr st tk
              | .raised steps m tk =>
                  .raised (thinkStepOf clock tick text :: errStepOf clock p.2 p.1.error :: steps)
                    m tk
            else
              .finished [thinkStepOf clock tick text, errStepOf clock p.2 p.1.error]
                none .error (p.2 + 1)

/-- `max_iterations = max_iterations or self.max_iterations`: a falsy per
call cap (`None` or `0`) is replaced by the agent's configured value; any
other integer — negative included — is kept. -/
def effectiveCap (cap : Option Int) (agentMax : Int) : Int :=
  match cap with
  | none => agentMax
  | some i => if i = 0 then agentMax else i

/-- `BaseAgent.run` with the `timeout_seconds` default of the constructed
`TaskContext` made explicit as `timeoutDefault` (the source never passes the
field, so it always takes the class default 300; `run` below fixes it).
`range(n)` iterates `max 0 n` times, hence `Int.toNat`. -/
def BaseAgent.runTC (ag : BaseAgent) (thinkO : Nat → Except String String)
    (clock : Nat → Nat) (task : String) (context : Option PyVal)
    (max_iterations_arg : Option Int) (timeoutDefault : Nat) :
    BaseAgent × AgentThought :=
  let maxIter := effectiveCap max_iterations_arg ag.max_iterations
  let task_id := ag.name ++ "_" ++ toString (clock 0)
  let thought0 : AgentThought :=
    { agent_name := ag.name
      task_id := task_id
      status := .idle
      thought_steps := []
      current_action := none
      final_result := none
      created_at := clock 1
      completed_at := none }
  let tc : TaskContext :=
    { task_id := task_id
      original_request := task
      priority := .medium
      metadata := context.getD (.pdict [])
      max_iterations := 10
      timeout_seconds := timeoutDefault }
  let ag2 : BaseAgent := { ag with status := .idle, current_task := some tc }
  let thought : AgentThought :=
    match runLoop ag2.tools ag2.continue_on_error thinkO clock maxIter.toNat 0 2 .idle with
    | .finished steps fr tst tick =>
        { thought0 with
          status := tst
          thought_steps := steps
          final_result := fr
          completed_at := some (clock tick) }
    | .raised steps m tick =>
        { thought0 with
          status := .error
          thought_steps := steps ++ [raisedStepOf clock tick m] }
  ({ ag2 with
      thought_history := ag2.thought_history ++ [thought]
      status := .idle
      current_task := none },
   thought)

/-- `BaseAgent.run` (lines 248-323): the constructed `TaskContext` carries
the class default `timeout_seconds = 300`. -/
def BaseAgent.run (ag : BaseAgent) (thinkO : Nat → Except String String)
    (clock : Nat → Nat) (task : String) (context : Option PyVal)
    (max_iterations_arg : Option Int) : BaseAgent × AgentThought :=
  ag.runTC thinkO clock task context max_iterations_arg 300

/-- Whether the extract-and-act stage of an iteration with think text `text`
succeeds: no trigger always succeeds; a trigger succeeds exactly when the
named tool exists and its handler returns normally. -/
def actionSucceeds (tools : List (String × Handler)) (text : String) : Bool :=
  match findTrigger text.toList with
  | none => true
  | some toolName =>
      match dictGet tools toolName with
      | none => false
      | some h =>
          match h (queryParams text) with
          | .ret _ => true
          | .exn _ => false

/-- One recorded expense of `MicroCEO` (`self.expenses` entries; the
timestamp is a clock reading). -/
structure ExpenseEntry where
  amount : ℚ
  category : String
  description : String
  timestamp : Nat

/-- The budget-ledger state of a `MicroCEO` instance: `self.budget` (a
`Decimal`, modelled exactly by `ℚ`), `self.currency`, `self.expenses`. -/
structure MicroCEOBudget where
  budget : ℚ
  currency : String
  expenses : List ExpenseEntry

/-- Python `s or dflt` on an optional string: `None` and `""` are falsy. -/
def orElseStr (s : Option String) (dflt : String) : String :=
  match s with
  | none => dflt
  | some v => if v = "" then dflt else v

/-- An optional string as the Python value put in a result payload. -/
def optStrVal (s : Option String) : PyVal :=
  match s with
  | none => .pnone
  | some v => .pstr v

/-- `MicroCEO._manage_budget` (micro_ceo.py lines 204-255): allocate, spend
(rejected when the amount exceeds the balance), report, unknown action.
`now` is the clock reading for the appended expense's timestamp. -/
def MicroCEOBudget.manage_budget (st : MicroCEOBudget) (action : String)
    (amount : Option ℚ) (category : Option String) (description : Option String)
    (now : Nat) : MicroCEOBudget × PyVal :=
  if action = "allocate" then
    match amount with
    | none => (st, .pdict [("error", .pstr "المبلغ مطلوب")])
    | some a =>
        let st1 := { st with budget := st.budget + a }
        (st1, .pdict [("action", .pstr "allocated"),
                      ("amount", .pnum a),
                      ("new_balance", .pnum st1.budget),
                      ("message", .pstr ("تم تخصيص " ++ toString a ++ " " ++ st.currency))])
  else if action = "spend" then
    match amount with
    | none => (st, .pdict [("error", .pstr "المبلغ مطلوب")])
    | some a =>
        if st.budget < a then
          (st, .pdict [("error", .pstr "الميزانية غير كافية")])
        else
          let st1 :=
            { st with
              budget := st.budget - a
              expenses := st.expenses ++
                [{ amount := a
                   category := orElseStr category "general"
                   description := orElseStr description ""
                   timestamp := now }] }
          (st1, .pdict [("action", .pstr "spent"),
                        ("amount", .pnum a),
                        ("category", optStrVal category),
                        ("new_balance", .pnum st1.budget)])
  else if action = "report" then
    (st, .pdict [("current_balance", .pnum st.budget),
                 ("total_expenses", .pnum (st.expenses.foldl (fun acc e => acc + e.amount) 0)),
                 ("transaction_count", .pint st.expenses.length)])
  else
    (st, .pdict [("error", .pstr "إجراء غير معروف")])

/-- The state reached by a sequence of `spend` calls, each given by an
amount, an optional category, an optional description and a timestamp. -/
def spendMany (st : MicroCEOBudget)
    (ops : List (ℚ × Option String × Option String × Nat)) : MicroCEOBudget :=
  ops.foldl
    (fun s o => (s.manage_budget "spend" (some o.1) o.2.1 o.2.2.1 o.2.2.2).1) st

/-- Looking up a key just assigned returns the assigned value (Python dict
assignment followed by lookup). -/
theorem dictGet_dictSet_self {α : Type} (l : List (String × α)) (k : String) (v : α) :
    dictGet (dictSet l k v) k = some v := by
  induction l with
  | nil => simp [dictSet, dictGet]
  | cons hd tl ih =>
      obtain ⟨k', v'⟩ := hd
      by_cases h : k = k' <;> simp [dictSet, dictGet, h, ih]

/-- The extract-and-act stage's success bit agrees with `actionSucceeds`. -/
theorem iterAction_success_eq (tools : List (String × Handler)) (clock : Nat → Nat)
    (text : String) (t1 : Nat) :
    (iterAction tools clock text t1).1.success = actionSucceeds tools text := by
  unfold iterAction actionSucceeds
  cases hft : findTrigger text.toList with
  | none => simp [noToolResult]
  | some toolName =>
      simp only []
      cases hd : dictGet tools toolName with
      | none => simp [actCore, hd]
      | some h =>
          cases hr : h (queryParams text) with
          | ret v => simp [actCore, hd, hr]
          | exn m => simp [actCore, hd, hr]

/-- `getLast?` of a list with one element appended. -/
theorem getLast?_append_singleton {α : Type} (l : List α) (x : α) :
    (l ++ [x]).getLast? = some x := by
  rw [List.getLast?_append_cons]
  rfl

/-- Length bounds on the steps the loop produces: a normal finish appends at
most `2 * fuel` steps and, when at least one iteration ran, at least two; a
raise leaves room for the handler's extra error step within `2 * fuel`. -/
theorem runLoop_length_bounds (tools : List (String × Handler)) (contErr : Bool)
    (thinkO : Nat → Except String String) (clock : Nat → Nat) :
    ∀ fuel iter tick tst,
      (∀ steps fr st tk,
          runLoop tools contErr thinkO clock fuel iter tick tst = .finished steps fr st tk →
          steps.length ≤ 2 * fuel ∧ (1 ≤ fuel → 2 ≤ steps.length)) ∧
      (∀ steps m tk,
          runLoop tools contErr thinkO clock fuel iter tick tst = .raised steps m tk →
          steps.length + 2 ≤ 2 * fuel) := by
  intro fuel
  induction fuel with
  | zero =>
      intro iter tick tst
      constructor
      · intro steps fr st tk h
        rw [runLoop] at h
        injection h with h1 h2 h3 h4
        subst h1
        exact ⟨by simp, by omega⟩
      · intro steps m tk h
        rw [runLoop] at h
        cases h
  | succ n ih =>
      intro iter tick tst
      constructor
      · intro steps fr st tk h
        rw [runLoop] at h
        cases hth : thinkO iter with
        | error m => rw [hth] at h; cases h
        | ok text =>
            rw [hth] at h
            simp only [] at h
            cases hs : (iterAction tools clock text (tick + 1)).1.success with
            | true =>
                rw [if_pos hs] at h
                injection h with h1 h2 h3 h4
                subst h1
                exact ⟨by simp, fun _ => by simp⟩
            | false =>
                rw [if_neg (by rw [hs]; exact Bool.false_ne_true)] at h
                cases hc : contErr with
                | false =>
                    rw [if_neg (by rw [hc]; exact Bool.false_ne_true)] at h
                    injection h with h1 h2 h3 h4
                    subst h1
                    exact ⟨by simp, fun _ => by simp⟩
                | true =>
                    rw [if_pos hc] at h
                    subst hc
                    cases hrec : runLoop tools true thinkO clock n (iter + 1)
                        ((iterAction tools clock text (tick + 1)).2 + 1) tst with
                    | finished steps' fr' st' tk' =>
                        rw [hrec] at h
                        injection h with h1 h2 h3 h4
                        subst h1
                        have hb := ((ih (iter + 1)
                          ((iterAction tools clock text (tick + 1)).2 + 1) tst).1
                          steps' fr' st' tk' hrec).1
                        exact ⟨by simp only [List.length_cons]; omega,
                          fun _ => by simp only [List.length_cons]; omega⟩
                    | raised steps' m' tk' =>
                        rw [hrec] at h
                        cases h
      · intro steps m tk h
        rw [runLoop] at h
        cases hth : thinkO iter with
        | error m' =>
            rw [hth] at h
            injection h with h1 h2 h3
            subst h1
            simp only [List.length_nil]
            omega
        | ok text =>
            rw [hth] at h
            simp only [] at h
            cases hs : (iterAction tools clock text (tick + 1)).1.success with
            | true =>
                rw [if_pos hs] at h
                cases h
            | false =>
                rw [if_neg (by rw [hs]; exact Bool.false_ne_true)] at h
                cases hc : contErr with
                | false =>
                    rw [if_neg (by rw [hc]; exact Bool.false_ne_true)] at h
                    cases h
                | true =>
                    rw [if_pos hc] at h
                    subst hc
                    cases hrec : runLoop tools true thinkO clock n (iter + 1)
                        ((iterAction tools clock text (tick + 1)).2 + 1) tst with
                    | finished steps' fr' st' tk' =>
                        rw [hrec] at h
                        cases h
                    | raised steps' m' tk' =>
                        rw [hrec] at h
                        injection h with h1 h2 h3
                        subst h1
                        have hb := (ih (iter + 1)
                          ((iterAction tools clock text (tick + 1)).2 + 1) tst).2
                          steps' m' tk' hrec
                        simp only [List.length_cons]
                        omega

/-- If the loop reaches iteration `j` (every earlier iteration's action
fails while `continue_on_error` holds) and the think stage of iteration `j`
raises with message `m`, the loop result is `raised` with `2 * j` steps
accumulated (a thinking and an error step per completed iteration). -/
theorem runLoop_raised_of_forced (tools : List (String × Handler))
    (thinkO : Nat → Except String String) (clock : Nat → Nat) (m : String) :
    ∀ (j fuel iter tick : Nat) (tst : AgentStatus), j < fuel →
      (∀ i, i < j → ∃ t, thinkO (iter + i) = .ok t ∧ actionSucceeds tools t = false) →
      thinkO (iter + j) = .error m →
      ∃ steps tk,
        runLoop tools true thinkO clock fuel iter tick tst = .raised steps m tk ∧
          steps.length = 2 * j := by
  intro j
  induction j with
  | zero =>
      intro fuel iter tick tst hj _hfail herr
      obtain ⟨n, rfl⟩ : ∃ n, fuel = n + 1 := ⟨fuel - 1, by omega⟩
      rw [Nat.add_zero] at herr
      rw [runLoop, herr]
      exact ⟨[], tick, rfl, rfl⟩
  | succ j ihj =>
      intro fuel iter tick tst hj hfail herr
      obtain ⟨n, rfl⟩ : ∃ n, fuel = n + 1 := ⟨fuel - 1, by omega⟩
      obtain ⟨t0, hok, hfalse⟩ := by
        have := hfail 0 (Nat.succ_pos j)
        rwa [Nat.add_zero] at this
      have hs : (iterAction tools clock t0 (tick + 1)).1.success = false := by
        rw [iterAction_success_eq]; exact hfalse
      have hfail' : ∀ i, i < j →
          ∃ t, thinkO (iter + 1 + i) = .ok t ∧ actionSucceeds tools t = false := by
        intro i hi
        have := hfail (i + 1) (by omega)
        rwa [show iter + (i + 1) = iter + 1 + i by omega] at this
      have herr' : thinkO (iter + 1 + j) = .error m := by
        rwa [show iter + (j + 1) = iter + 1 + j by omega] at herr
      obtain ⟨steps, tk, hrec, hlen⟩ :=
        ihj n (iter + 1) ((iterAction tools clock t0 (tick + 1)).2 + 1) tst
          (by omega) hfail' herr'
      refine ⟨thinkStepOf clock tick t0 ::
          errStepOf clock (iterAction tools clock t0 (tick + 1)).2
            (iterAction tools clock t0 (tick + 1)).1.error :: steps, tk, ?_, ?_⟩
      · rw [runLoop, hok]
        simp only []
        rw [if_neg (by rw [hs]; exact Bool.false_ne_true), if_pos trivial, hrec]
      · simp only [List.length_cons]
        omega

/-- A single `spend` call from a non-negative balance keeps the balance
non-negative: an amount above the balance is rejected with the state
unchanged, any other amount is subtracted without crossing zero. -/
theorem manage_budget_spend_nonneg (st : MicroCEOBudget) (a : ℚ)
    (cat desc : Option String) (now : Nat) (h : 0 ≤ st.budget) :
    0 ≤ ((st.manage_budget "spend" (some a) cat desc now).1).budget := by
  by_cases hb : st.budget < a
  · simp [MicroCEOBudget.manage_budget, hb]
    exact h
  · simp [MicroCEOBudget.manage_budget, hb]
    linarith [not_lt.mp hb]

/-- `spendMany` unfolding over a cons. -/
theorem spendMany_cons (st : MicroCEOBudget)
    (o : ℚ × Option String × Option String × Nat)
    (ops : List (ℚ × Option String × Option String × Nat)) :
    spendMany st (o :: ops) =
      spendMany ((st.manage_budget "spend" (some o.1) o.2.1 o.2.2.1 o.2.2.2).1) ops := rfl

/-- Any sequence of `spend` calls preserves a non-negative balance. -/
theorem spendMany_nonneg (ops : List (ℚ × Option String × Option String × Nat)) :
    ∀ st : MicroCEOBudget, 0 ≤ st.budget → 0 ≤ (spendMany st ops).budget := by
  induction ops with
  | nil => intro st h; exact h
  | cons o rest ih =>
      intro st h
      rw [spendMany_cons]
      exact ih _ (manage_budget_spend_nonneg st o.1 o.2.1 o.2.2.1 o.2.2.2 h)

/-- The not-found message is the action name padded by 20 fixed characters. -/
theorem toolNotFoundMsg_length (action : String) :
    (toolNotFoundMsg action).length = action.length + 20 := by
  have h1 : ("الأداة " : String).length = 7 := rfl
  have h2 : squote.length = 1 := rfl
  have h3 : (" غير موجودة" : String).length = 11 := rfl
  simp [toolNotFoundMsg, String.length_append, h1, h2, h3]
  omega

/-- C2: for every agent state and every action name that is not a registered
tool, `act` returns a failed `ActionResult` whose error is the fixed
non-empty message naming the missing tool; `act` is a total function, so it
never raises. -/
theorem act_unregistered_tool_fails (ag : BaseAgent) (action : String)
    (params : PyVal) (startT endT : Nat)
    (hmiss : dictGet ag.tools action = none) :
    (ag.act action params startT endT).2.success = false ∧
    (ag.act action params startT endT).2.error = some (toolNotFoundMsg action) ∧
    toolNotFoundMsg action ≠ "" := by
  refine ⟨?_, ?_, ?_⟩
  · simp [BaseAgent.act, actCore, hmiss]
  · simp [BaseAgent.act, actCore, hmiss]
  · intro hemp
    have hl := congrArg String.length hemp
    rw [toolNotFoundMsg_length] at hl
    simp at hl

/-- Witness for C2: the empty-tooled freshly constructed agent with the
probe name `__nonexistent__` and empty params. -/
theorem act_unregistered_tool_fails_witness :
    (((initAgent "TestAgent" "r" "d" false).act "__nonexistent__" (.pdict []) 0 5).2.success
        = false) ∧
    (((initAgent "TestAgent" "r" "d" false).act "__nonexistent__" (.pdict []) 0 5).2.error
        = some (toolNotFoundMsg "__nonexistent__")) ∧
    toolNotFoundMsg "__nonexistent__" ≠ "" :=
  act_unregistered_tool_fails (initAgent "TestAgent" "r" "d" false) "__nonexistent__"
    (.pdict []) 0 5 rfl

/-- C6: a registered tool whose handler returns normally makes `act` succeed
with a non-negative execution time (clock readings in order); a mapping
return value is passed through unchanged as `data`, any other value is
wrapped as `{"result": str(value)}`. -/
theorem act_registered_success_wraps (ag : BaseAgent) (action : String)
    (params : PyVal) (startT endT : Nat) (handler : Handler) (v : PyVal)
    (hlook : dictGet ag.tools action = some handler)
    (hret : handler params = .ret v)
    (hmono : startT ≤ endT) :
    (ag.act action params startT endT).2.success = true ∧
    0 ≤ (ag.act action params startT endT).2.execution_time_ms ∧
    (v.isMapping = true → (ag.act action params startT endT).2.data = some v) ∧
    (v.isMapping = false →
      (ag.act action params startT endT).2.data =
        some (.pdict [("result", .pstr v.pyStr)])) := by
  simp only [BaseAgent.act, actCore, hlook, hret]
  refine ⟨by simp, by omega, ?_, ?_⟩ <;> intro hm <;> simp [hm]

/-- A concrete handler returning a non-mapping value. -/
def strEchoHandler : Handler := fun _ => .ret (.pstr "hi")

/-- A concrete agent with one registered tool. -/
def echoAgent : BaseAgent :=
  (initAgent "A" "r" "d" false).register_tool "echo" strEchoHandler "echo tool" (.pdict [])

/-- Witness for C6: the registered `echo` tool at clock readings 2 and 7. -/
theorem act_registered_success_wraps_witness :
    ((echoAgent.act "echo" (.pdict []) 2 7).2.success = true) ∧
    (0 ≤ (echoAgent.act "echo" (.pdict []) 2 7).2.execution_time_ms) ∧
    ((PyVal.pstr "hi").isMapping = true →
      (echoAgent.act "echo" (.pdict []) 2 7).2.data = some (.pstr "hi")) ∧
    ((PyVal.pstr "hi").isMapping = false →
      (echoAgent.act "echo" (.pdict []) 2 7).2.data =
        some (.pdict [("result", .pstr (PyVal.pstr "hi").pyStr)])) :=
  act_registered_success_wraps echoAgent "echo" (.pdict []) 2 7 strEchoHandler
    (.pstr "hi") rfl rfl (by omega)

/-- C8: registering a duplicate name never fails: lookup (hence `act`
dispatch) selects the most recently registered handler, and every
registration appends exactly one schema descriptor. -/
theorem register_tool_duplicate_last_wins (ag : BaseAgent) (n : String)
    (f1 f2 : Handler) (d1 d2 : String) (p1 p2 : PyVal) :
    ((ag.register_tool n f1 d1 p1).register_tool n f2 d2 p2).get_tool n = some f2 ∧
    (ag.register_tool n f1 d1 p1).tool_descriptions.length =
      ag.tool_descriptions.length + 1 ∧
    ((ag.register_tool n f1 d1 p1).register_tool n f2 d2 p2).tool_descriptions.length =
      ag.tool_descriptions.length + 2 ∧
    ∀ params startT endT,
      (((ag.register_tool n f1 d1 p1).register_tool n f2 d2 p2).act n params startT endT).2 =
        actCore [(n, f2)] n params startT endT := by
  refine ⟨?_, ?_, ?_, ?_⟩
  · simp [BaseAgent.get_tool, BaseAgent.register_tool, dictGet_dictSet_self]
  · simp [BaseAgent.register_tool]
  · simp [BaseAgent.register_tool]
  · intro params startT endT
    simp [BaseAgent.act, actCore, BaseAgent.register_tool, dictGet_dictSet_self, dictGet]

/-- C9: the `timeout_seconds` value carried by the constructed `TaskContext`
is stored but never consulted: two executions of `run` differing only in
that value produce the same transcript (and the same final agent state), and
`run` itself always stores the class default 300. -/
theorem run_independent_of_timeout (ag : BaseAgent)
    (thinkO : Nat → Except String String) (clock : Nat → Nat) (task : String)
    (context : Option PyVal) (cap : Option Int) (t1 t2 : Nat) :
    (ag.runTC thinkO clock task context cap t1).2 =
      (ag.runTC thinkO clock task context cap t2).2 ∧
    ag.runTC thinkO clock task context cap t1 =
      ag.runTC thinkO clock task context cap t2 ∧
    ag.run thinkO clock task context cap = ag.runTC thinkO clock task context cap 300 :=
  ⟨rfl, rfl, rfl⟩

/-- C7: starting from a non-negative balance, no sequence of `spend` calls
can drive the MicroCEO budget negative, and any single `spend` whose amount
exceeds the current balance returns the insufficient-budget error payload
with the whole state unchanged. -/
theorem micro_ceo_budget_never_negative (st : MicroCEOBudget)
    (ops : List (ℚ × Option String × Option String × Nat))
    (h : 0 ≤ st.budget) :
    0 ≤ (spendMany st ops).budget ∧
    ∀ (a : ℚ) (cat desc : Option String) (now : Nat), st.budget < a →
      st.manage_budget "spend" (some a) cat desc now =
        (st, .pdict [("error", .pstr "الميزانية غير كافية")]) := by
  refine ⟨spendMany_nonneg ops st h, ?_⟩
  intro a cat desc now hlt
  simp [MicroCEOBudget.manage_budget, hlt]

/-- Witness for C7: balance 100, one `spend` of 150 — rejected with the
error payload, balance (and full state) unchanged. -/
theorem micro_ceo_budget_never_negative_witness :
    (0 ≤ (spendMany ⟨100, "USD", []⟩ [(150, none, none, 0)]).budget) ∧
    ((⟨100, "USD", []⟩ : MicroCEOBudget).manage_budget "spend" (some 150) none none 0 =
      (⟨100, "USD", []⟩, .pdict [("error", .pstr "الميزانية غير كافية")])) :=
  ⟨(micro_ceo_budget_never_negative ⟨100, "USD", []⟩ [(150, none, none, 0)]
      (by norm_num)).1,
   (micro_ceo_budget_never_negative ⟨100, "USD", []⟩ [(150, none, none, 0)]
      (by norm_num)).2 150 none none 0 (by norm_num)⟩

/-- With at least one remaining iteration, a think text holding no trigger
phrase terminates the loop at once: the synthesized no-tool result is
successful, so the success branch appends the action step, sets the final
result to the message payload and breaks with status idle. -/
theorem runLoop_succ_no_trigger (tools : List (String × Handler)) (contErr : Bool)
    (thinkO : Nat → Except String String) (clock : Nat → Nat)
    (n iter tick : Nat) (tst : AgentStatus) (text : String)
    (hok : thinkO iter = .ok text) (htrig : findTrigger text.toList = none) :
    runLoop tools contErr thinkO clock (n + 1) iter tick tst =
      .finished [thinkStepOf clock tick text, actionStepOf clock (tick + 1) (some noToolData)]
        (some noToolData) .idle (tick + 1 + 1) := by
  rw [runLoop, hok]
  simp only []
  have hia : iterAction tools clock text (tick + 1) = (noToolResult, tick + 1) := by
    unfold iterAction
    rw [htrig]
  rw [hia]
  simp [noToolResult]

/-- C5: when the first think text holds no recognized trigger phrase, `run`
terminates successfully after exactly one iteration: the synthesized result
is successful with zero execution time and the fixed message payload, the
transcript has one thinking and one action step, the final result is the
message payload, the status is idle and the transcript is closed. -/
theorem run_no_trigger_single_iteration (ag : BaseAgent)
    (thinkO : Nat → Except String String) (clock : Nat → Nat) (task : String)
    (context : Option PyVal) (cap : Option Int) (t0 : String)
    (hfuel : 1 ≤ (effectiveCap cap ag.max_iterations).toNat)
    (hok : thinkO 0 = .ok t0)
    (htrig : findTrigger t0.toList = none) :
    noToolResult.success = true ∧
    noToolResult.execution_time_ms = 0 ∧
    noToolResult.data = some noToolData ∧
    (ag.run thinkO clock task context cap).2.thought_steps.length = 2 ∧
    (ag.run thinkO clock task context cap).2.final_result = some noToolData ∧
    (ag.run thinkO clock task context cap).2.status = .idle ∧
    (ag.run thinkO clock task context cap).2.completed_at = some (clock 4) := by
  obtain ⟨n, hn⟩ : ∃ n, (effectiveCap cap ag.max_iterations).toNat = n + 1 :=
    ⟨(effectiveCap cap ag.max_iterations).toNat - 1, by omega⟩
  simp only [BaseAgent.run, BaseAgent.runTC]
  rw [hn, runLoop_succ_no_trigger ag.tools ag.continue_on_error thinkO clock n 0 2 .idle
    t0 hok htrig]
  exact ⟨rfl, rfl, rfl, rfl, rfl, rfl, rfl⟩

/-- Witness for C5: a fresh agent whose first think text is trigger-free. -/
theorem run_no_trigger_single_iteration_witness :
    noToolResult.success = true ∧
    noToolResult.execution_time_ms = 0 ∧
    noToolResult.data = some noToolData ∧
    ((initAgent "A" "r" "d" false).run (fun _ => .ok "hello") id "t" none
        none).2.thought_steps.length = 2 ∧
    ((initAgent "A" "r" "d" false).run (fun _ => .ok "hello") id "t" none
        none).2.final_result = some noToolData ∧
    ((initAgent "A" "r" "d" false).run (fun _ => .ok "hello") id "t" none
        none).2.status = .idle ∧
    ((initAgent "A" "r" "d" false).run (fun _ => .ok "hello") id "t" none
        none).2.completed_at = some (id 4) :=
  run_no_trigger_single_iteration (initAgent "A" "r" "d" false)
    (fun _ => .ok "hello") id "t" none none "hello" (by decide) rfl rfl

/-- C1: `run` is a total function into transcripts — failure never escapes
to the caller — and when the loop body raises at iteration `j` (every
earlier iteration's action having failed with `continue_on_error` set), the
exception is caught once at the outer level: the returned transcript's
status is forced to `error`, a single error step carrying the exception's
message is appended after the `2 * j` steps already accumulated, and the
transcript is returned and appended to the agent's history. -/
theorem run_catches_loop_exception (ag : BaseAgent)
    (thinkO : Nat → Except String String) (clock : Nat → Nat) (task : String)
    (context : Option PyVal) (cap : Option Int) (j : Nat) (m : String)
    (hcont : ag.continue_on_error = true)
    (hj : j < (effectiveCap cap ag.max_iterations).toNat)
    (hfail : ∀ i, i < j → ∃ t, thinkO i = .ok t ∧ actionSucceeds ag.tools t = false)
    (herr : thinkO j = .error m) :
    (ag.run thinkO clock task context cap).2.status = .error ∧
    (ag.run thinkO clock task context cap).2.thought_steps.length = 2 * j + 1 ∧
    (∃ tk, (ag.run thinkO clock task context cap).2.thought_steps.getLast? =
      some (raisedStepOf clock tk m)) ∧
    (ag.run thinkO clock task context cap).1.thought_history =
      ag.thought_history ++ [(ag.run thinkO clock task context cap).2] := by
  have hfail0 : ∀ i, i < j →
      ∃ t, thinkO (0 + i) = .ok t ∧ actionSucceeds ag.tools t = false := by
    intro i hi
    simpa using hfail i hi
  have herr0 : thinkO (0 + j) = .error m := by simpa using herr
  obtain ⟨steps, tk, hrec, hlen⟩ :=
    runLoop_raised_of_forced ag.tools thinkO clock m j
      (effectiveCap cap ag.max_iterations).toNat 0 2 .idle hj hfail0 herr0
  simp only [BaseAgent.run, BaseAgent.runTC, hcont]
  rw [hrec]
  refine ⟨rfl, ?_, ⟨tk, ?_⟩, trivial⟩
  · simp [hlen]
  · exact getLast?_append_singleton _ _

/-- Witness for C1: a think stage that raises immediately (`j = 0`). -/
theorem run_catches_loop_exception_witness :
    (((initAgent "A" "r" "d" false).run (fun _ => .error "boom") id "t" none
        none).2.status = .error) ∧
    (((initAgent "A" "r" "d" false).run (fun _ => .error "boom") id "t" none
        none).2.thought_steps.length = 1) ∧
    (∃ tk, ((initAgent "A" "r" "d" false).run (fun _ => .error "boom") id "t" none
        none).2.thought_steps.getLast? = some (raisedStepOf id tk "boom")) ∧
    ((initAgent "A" "r" "d" false).run (fun _ => .error "boom") id "t" none
        none).1.thought_history =
      (initAgent "A" "r" "d" false).thought_history ++
        [((initAgent "A" "r" "d" false).run (fun _ => .error "boom") id "t" none
          none).2] := by
  have h := run_catches_loop_exception (initAgent "A" "r" "d" false)
    (fun _ => .error "boom") id "t" none none 0 "boom" rfl (by decide)
    (fun i hi => absurd hi (Nat.not_lt_zero i)) rfl
  simpa using h

/-- A cap that is `None` or a non-negative integer yields a positive
iteration count whenever the agent's configured maximum is positive. -/
theorem effectiveCap_toNat_pos (cap : Option Int) (agentMax : Int)
    (hmax : 1 ≤ agentMax)
    (hcap : cap = none ∨ ∃ i : Int, cap = some i ∧ 0 ≤ i) :
    1 ≤ (effectiveCap cap agentMax).toNat := by
  rcases hcap with rfl | ⟨i, rfl, hi⟩
  · simp only [effectiveCap]
    omega
  · simp only [effectiveCap]
    by_cases h0 : i = 0
    · rw [if_pos h0]
      omega
    · rw [if_neg h0]
      omega

/-- Step-count bounds of a `run` whose iteration count is positive, and the
single history append of the returned transcript. -/
theorem run_steps_length_bounds (ag : BaseAgent)
    (thinkO : Nat → Except String String) (clock : Nat → Nat) (task : String)
    (context : Option PyVal) (cap : Option Int)
    (hfuel : 1 ≤ (effectiveCap cap ag.max_iterations).toNat) :
    1 ≤ (ag.run thinkO clock task context cap).2.thought_steps.length ∧
    (ag.run thinkO clock task context cap).2.thought_steps.length ≤
      2 * (effectiveCap cap ag.max_iterations).toNat ∧
    (ag.run thinkO clock task context cap).1.thought_history =
      ag.thought_history ++ [(ag.run thinkO clock task context cap).2] := by
  have hb := runLoop_length_bounds ag.tools ag.continue_on_error thinkO clock
    (effectiveCap cap ag.max_iterations).toNat 0 2 .idle
  simp only [BaseAgent.run, BaseAgent.runTC]
  cases hres : runLoop ag.tools ag.continue_on_error thinkO clock
      (effectiveCap cap ag.max_iterations).toNat 0 2 .idle with
  | finished steps fr st tk =>
      have hfin := hb.1 steps fr st tk hres
      refine ⟨?_, ?_, trivial⟩
      · simp only []
        omega
      · simp only []
        omega
  | raised steps m tk =>
      have hr := hb.2 steps m tk hres
      refine ⟨?_, ?_, trivial⟩
      · simp
      · simp
        omega

/-- C3 counterexample: at the explicit per-call iteration cap `-2` the
returned transcript's `thought_steps` is empty, violating the claimed lower
bound of 1 (`-2` is truthy, so Python's `or` keeps it and `range(-2)` runs
zero iterations). -/
theorem run_steps_bounds_counterexample :
    ¬ (1 ≤ ((initAgent "A" "r" "d" false).run (fun _ => .ok "x") id "t" none
        (some (-2))).2.thought_steps.length) := by
  intro hcontra
  have hzero : ((initAgent "A" "r" "d" false).run (fun _ => .ok "x") id "t" none
      (some (-2))).2.thought_steps.length = 0 := rfl
  omega

/-- C3 (amended): each `run` invocation appends exactly one transcript to
the history, and whenever the per-call cap is `None` or non-negative (so
that the effective iteration count is positive) the transcript's step count
lies between 1 and twice the effective iteration count; a negative explicit
cap instead produces an empty step list. -/
theorem run_steps_bounds (ag : BaseAgent)
    (thinkO : Nat → Except String String) (clock : Nat → Nat) (task : String)
    (context : Option PyVal) (cap : Option Int)
    (hmax : 1 ≤ ag.max_iterations)
    (hcap : cap = none ∨ ∃ i : Int, cap = some i ∧ 0 ≤ i) :
    1 ≤ (ag.run thinkO clock task context cap).2.thought_steps.length ∧
    (ag.run thinkO clock task context cap).2.thought_steps.length ≤
      2 * (effectiveCap cap ag.max_iterations).toNat ∧
    (ag.run thinkO clock task context cap).1.thought_history =
      ag.thought_history ++ [(ag.run thinkO clock task context cap).2] :=
  run_steps_length_bounds ag thinkO clock task context cap
    (effectiveCap_toNat_pos cap ag.max_iterations hmax hcap)

/-- Witness for C3 (amended): the default cap on a fresh agent. -/
theorem run_steps_bounds_witness :
    1 ≤ ((initAgent "A" "r" "d" false).run (fun _ => .ok "x") id "t" none
        none).2.thought_steps.length ∧
    ((initAgent "A" "r" "d" false).run (fun _ => .ok "x") id "t" none
        none).2.thought_steps.length ≤
      2 * (effectiveCap none (initAgent "A" "r" "d" false).max_iterations).toNat ∧
    ((initAgent "A" "r" "d" false).run (fun _ => .ok "x") id "t" none
        none).1.thought_history =
      (initAgent "A" "r" "d" false).thought_history ++
        [((initAgent "A" "r" "d" false).run (fun _ => .ok "x") id "t" none none).2] :=
  run_steps_bounds (initAgent "A" "r" "d" false) (fun _ => .ok "x") id "t" none none
    (by decide) (Or.inl rfl)

/-- C10 counterexample: the per-call cap `-1` alone makes `run` return a
transcript with an empty `thought_steps` list (`-1` is truthy for `or`, and
`range(-1)` is empty). -/
theorem run_negative_cap_empty_steps :
    ((initAgent "A" "r" "d" false).run (fun _ => .ok "x") id "t" none
      (some (-1))).2.thought_steps = [] := rfl

/-- C10 (amended): a falsy per-call cap (`None` or `0`) is replaced by the
agent's configured `max_iterations` (10 by default), so for `None`, `0` or
any non-negative explicit cap the returned transcript is never empty; only
a negative explicit cap yields zero iterations. -/
theorem run_falsy_cap_replaced (ag : BaseAgent)
    (thinkO : Nat → Except String String) (clock : Nat → Nat) (task : String)
    (context : Option PyVal)
    (hmax10 : ag.max_iterations = 10) :
    (∀ cap, (cap = none ∨ cap = some 0) → effectiveCap cap ag.max_iterations = 10) ∧
    (∀ cap : Option Int, (cap = none ∨ ∃ i : Int, cap = some i ∧ 0 ≤ i) →
      (ag.run thinkO clock task context cap).2.thought_steps ≠ []) := by
  constructor
  · rintro cap (rfl | rfl) <;> simp [effectiveCap, hmax10]
  · intro cap hcap
    have h1 := (run_steps_length_bounds ag thinkO clock task context cap
      (effectiveCap_toNat_pos cap ag.max_iterations (by omega) hcap)).1
    intro hemp
    rw [hemp] at h1
    simp at h1

/-- Witness for C10 (amended): the default agent with cap `0`. -/
theorem run_falsy_cap_replaced_witness :
    ((effectiveCap (some 0) (initAgent "A" "r" "d" false).max_iterations = 10) ∧
     ((initAgent "A" "r" "d" false).run (fun _ => .ok "x") id "t" none
        (some 0)).2.thought_steps ≠ []) := by
  have h := run_falsy_cap_replaced (initAgent "A" "r" "d" false) (fun _ => .ok "x")
    id "t" none rfl
  exact ⟨h.1 (some 0) (Or.inr rfl), h.2 (some 0) (Or.inr ⟨0, rfl, le_refl 0⟩)⟩

/-- C4 counterexample: a think stage that raises at once is caught by the
outer handler, which returns the transcript without ever stamping
`completed_at` (the stamp sits inside the `try`, after the loop). -/
theorem run_exception_completed_at_none :
    ((initAgent "A" "r" "d" false).run (fun _ => .error "boom") id "t" none
      none).2.completed_at = none := rfl

/-- C4 (amended): `completed_at` is stamped exactly on the normal loop
exits — success break, error break, or exhaustion of the iteration budget —
while a transcript returned through the outer exception handler is left
with `completed_at` null. -/
theorem run_completed_at_iff_loop_finished (ag : BaseAgent)
    (thinkO : Nat → Except String String) (clock : Nat → Nat) (task : String)
    (context : Option PyVal) (cap : Option Int) :
    (∀ steps fr st tk,
        runLoop ag.tools ag.continue_on_error thinkO clock
          (effectiveCap cap ag.max_iterations).toNat 0 2 .idle =
            .finished steps fr st tk →
        (ag.run thinkO clock task context cap).2.completed_at = some (clock tk)) ∧
    (∀ steps m tk,
        runLoop ag.tools ag.continue_on_error thinkO clock
          (effectiveCap cap ag.max_iterations).toNat 0 2 .idle = .raised steps m tk →
        (ag.run thinkO clock task context cap).2.completed_at = none) := by
  constructor
  · intro steps fr st tk hres
    simp only [BaseAgent.run, BaseAgent.runTC]
    rw [hres]
  · intro steps m tk hres
    simp only [BaseAgent.run, BaseAgent.runTC]
    rw [hres]

/-- Witness for C4 (amended): a trigger-free think text finishes the loop
normally after one iteration and `completed_at` is stamped. -/
theorem run_completed_at_iff_loop_finished_witness :
    ((initAgent "A" "r" "d" false).run (fun _ => .ok "hello") id "t" none
      none).2.completed_at = some (id 4) :=
  (run_completed_at_iff_loop_finished (initAgent "A" "r" "d" false)
    (fun _ => .ok "hello") id "t" none none).1 _ _ _ _ rfl
